import Mathlib

/-!
Shallow embedding of the `ttj` TypeScript-to-JavaScript batch converter
(`src/index.js`).  Paths and file contents are modelled as `List Char`;
the external transform engine (recast + babel) and the filesystem
primitives (`fs.readFile`, `fs.writeFile`, `fs.unlink`, `fs.readdir`)
are oracles supplied through an `Env` record.  Filesystem mutations are
recorded as an ordered trace of operations, and console output as an
ordered trace of messages, so that ordering and frame properties of the
orchestration layer can be stated and proved.
-/

namespace Ttj

/-- Node `path.extname` helper: the basename of a path, i.e. the part after
the last `/`, with trailing slashes stripped first (as Node does). -/
def basenameOf (p : List Char) : List Char :=
  ((p.reverse.dropWhile (fun c => c == '/')).takeWhile (fun c => c != '/')).reverse

/-- Model of Node `path.extname` (an external library call, modelled from its
documented behaviour): the substring of the basename from its last `.` to the
end; empty when the basename has no dot, when its only dot is its first
character (dotfiles such as `.ts` have no extension), or when the basename is
exactly `..`. -/
def extname (p : List Char) : List Char :=
  if basenameOf p = ['.', '.'] then []
  else if ((basenameOf p).reverse.takeWhile (fun c => c != '.')).length
      = (basenameOf p).length then []
  else if ((basenameOf p).reverse.takeWhile (fun c => c != '.')).length + 1
      = (basenameOf p).length then []
  else (((basenameOf p).reverse.takeWhile (fun c => c != '.')) ++ ['.']).reverse

/-- `src/index.js` line 63: `path.extname(filePath).toLowerCase()`. -/
def extLower (p : List Char) : List Char :=
  (extname p).map Char.toLower

/-- `SUPPORTED_EXTENSIONS` (`src/index.js` line 18). -/
def SUPPORTED_EXTENSIONS : List (List Char) :=
  [".ts".toList, ".tsx".toList]

/-- `OUTPUT_EXTENSIONS` (`src/index.js` lines 19-22).  The JS object lookup
yields `undefined` off the two keys; that case is unreachable behind the
`SUPPORTED_EXTENSIONS` guard in `processFile` and is rendered as `[]`. -/
def OUTPUT_EXTENSIONS (ext : List Char) : List Char :=
  if ext = ".ts".toList then ".js".toList
  else if ext = ".tsx".toList then ".jsx".toList
  else []

/-- `IGNORED_DIRS` (`src/index.js` line 23). -/
def IGNORED_DIRS : List (List Char) :=
  ["node_modules".toList, ".git".toList, ".vscode".toList, ".idea".toList]

/-- JS `name.startsWith('.')` (`src/index.js` line 110). -/
def startsWithDot : List Char → Bool
  | '.' :: _ => true
  | _ => false

/-- JS `s.slice(0, -n)` for a nonnegative count `n` (`src/index.js` line 79):
for `n = 0` JS returns the empty slice `s.slice(0, 0)`, otherwise the first
`length - n` characters. -/
def jsSliceDropEnd (l : List Char) (n : Nat) : List Char :=
  if n = 0 then [] else l.take (l.length - n)

/-- `src/index.js` lines 78-79: the output path obtained by replacing the
(lower-cased) recognized extension with its `OUTPUT_EXTENSIONS` counterpart. -/
def newPathOf (filePath : List Char) : List Char :=
  jsSliceDropEnd filePath (extLower filePath).length ++ OUTPUT_EXTENSIONS (extLower filePath)

/-- Does `pat` start the list `s`?  (Executable comparison used by the model
of JS `String.prototype.includes`.) -/
def leadsWith : List Char → List Char → Bool
  | [], _ => true
  | _ :: _, [] => false
  | a :: as, b :: bs => a == b && leadsWith as bs

/-- Model of JS `s.includes(pat)` (`src/index.js` line 46): scan every
position of `s` for an occurrence of `pat`. -/
def jsIncludes (s pat : List Char) : Bool :=
  match s with
  | [] => pat.isEmpty
  | _ :: t => leadsWith pat s || jsIncludes t pat

/-- The literal substring `'tsx'` used by the markup-mode heuristic
(`src/index.js` line 46). -/
def tsxMarker : List Char := "tsx".toList

/-- `path.join(currentDir, entry.name)` (`src/index.js` line 107) for a
directory path and a plain entry name. -/
def pathJoin (cur name : List Char) : List Char :=
  cur ++ '/' :: name

/-- `convertTypeScript` (`src/index.js` lines 30-55).  Parsing,
type-stripping and printing are delegated to the external engine; the file
models only what the orchestration layer contributes: the `isTSX` mode flag
is `sourceCode.includes('tsx')` (line 46), and an engine error yields `none`
(the JS `catch` returning `null`). -/
def convertTypeScript (engine : List Char → Bool → Option (List Char))
    (sourceCode : List Char) : Option (List Char) :=
  engine sourceCode (jsIncludes sourceCode tsxMarker)

/-- A completed filesystem mutation. -/
inductive FsOp where
  | write (path content : List Char)
  | unlink (path : List Char)
  deriving DecidableEq

/-- Console output of the orchestration layer, one constructor per
`console.*` call site in `src/index.js`. -/
inductive Msg where
  | skipUnsupported (path : List Char)
  | successConverted (oldPath newPath : List Char)
  | failedToProcess (path reason : List Char)
  | failedToReadDirectory (path : List Char)
  | runtimeParams (dir : List Char) (file : Option (List Char)) (dryRun : Bool)
  | dryRunBanner
  | wouldConvertFile (file : List Char)
  | wouldScanDirectory (dir : List Char)
  | conversionComplete (success failure : Nat)
  deriving DecidableEq

/-- Oracles for the external world: `fs.readFile`, the transform engine,
`fs.writeFile` and `fs.unlink`.  Each fallible call either succeeds or fails
with an error message; a failed write or unlink completes no mutation. -/
structure Env where
  read : List Char → Except (List Char) (List Char)
  engine : List Char → Bool → Option (List Char)
  write : List Char → List Char → Except (List Char) Unit
  unlink : List Char → Except (List Char) Unit

/-- Result of one `processFile` call: its boolean return value, the ordered
trace of completed filesystem mutations, and the console lines it emitted. -/
structure FileResult where
  ok : Bool
  ops : List FsOp
  msgs : List Msg
  deriving DecidableEq

/-- JS message of the `Error('Conversion failed')` thrown at
`src/index.js` line 75. -/
def conversionFailedReason : List Char := "Conversion failed".toList

/-- `processFile` (`src/index.js` lines 62-91).  All errors raised inside
the `try` block (read, transform, write, unlink) are caught at lines 87-90
and converted into a `false` return, so the embedding is a total function.
JS truthiness on line 74 (`if (!convertedCode)`) also treats an empty output
string as a failure. -/
def processFile (env : Env) (filePath : List Char) : FileResult :=
  let ext := extLower filePath
  if !(SUPPORTED_EXTENSIONS.contains ext) then
    { ok := false, ops := [], msgs := [Msg.skipUnsupported filePath] }
  else
    match env.read filePath with
    | Except.error e => { ok := false, ops := [], msgs := [Msg.failedToProcess filePath e] }
    | Except.ok sourceCode =>
      match convertTypeScript env.engine sourceCode with
      | none =>
          { ok := false, ops := [], msgs := [Msg.failedToProcess filePath conversionFailedReason] }
      | some convertedCode =>
        if convertedCode.isEmpty then
          { ok := false, ops := [], msgs := [Msg.failedToProcess filePath conversionFailedReason] }
        else
          let newPath := newPathOf filePath
          match env.write newPath convertedCode with
          | Except.error e =>
              { ok := false, ops := [], msgs := [Msg.failedToProcess filePath e] }
          | Except.ok _ =>
            match env.unlink filePath with
            | Except.error e =>
                { ok := false, ops := [FsOp.write newPath convertedCode],
                  msgs := [Msg.failedToProcess filePath e] }
            | Except.ok _ =>
                { ok := true, ops := [FsOp.write newPath convertedCode, FsOp.unlink filePath],
                  msgs := [Msg.successConverted filePath newPath] }

/-- A filesystem snapshot: which content, if any, each path holds. -/
def FS : Type := List Char → Option (List Char)

/-- Effect of one completed mutation on a snapshot. -/
def applyOp (fs : FS) : FsOp → FS
  | FsOp.write p c => fun q => if q = p then some c else fs q
  | FsOp.unlink p => fun q => if q = p then none else fs q

/-- Effect of an ordered trace of mutations on a snapshot. -/
def applyOps (fs : FS) (ops : List FsOp) : FS :=
  ops.foldl applyOp fs

/-- The empty filesystem snapshot. -/
def emptyFS : FS := fun _ => none

/-- An ordered `fs.readdir(..., { withFileTypes: true })` listing, with the
list structure built into the type (`nil`/cons-shaped constructors), so that
the walker is plainly structurally recursive.  `dir name readable children
rest` models a subdirectory entry whose own `readdir` succeeds with
`children` when `readable` and throws when not (its contents then exist on
disk but are never seen by the walker); `other` covers entries that are
neither `isDirectory()` nor `isFile()` (symlinks, sockets, ...), which the
JS loop silently ignores. -/
inductive Entries where
  | nil : Entries
  | file (name : List Char) (rest : Entries) : Entries
  | dir (name : List Char) (readable : Bool) (children : Entries) (rest : Entries) : Entries
  | other (name : List Char) (rest : Entries) : Entries

/-- Accumulated observable outcome of a (sub)walk: the two counters of
`convertDirectory`, plus instrumentation traces — every directory the walk
recursed into (each `processDirectory` invocation), every file it handed to
`processFile`, the completed filesystem mutations and the console lines. -/
structure WalkResult where
  success : Nat
  failure : Nat
  dirsEntered : List (List Char)
  filesProcessed : List (List Char)
  ops : List FsOp
  msgs : List Msg
  deriving DecidableEq

/-- The contribution of zero visited entries. -/
def emptyWalk : WalkResult :=
  { success := 0, failure := 0, dirsEntered := [], filesProcessed := [], ops := [], msgs := [] }

/-- Sequential accumulation of two walk contributions (the JS counters are
incremented in place; addition and trace concatenation model that). -/
def combine (a b : WalkResult) : WalkResult :=
  { success := a.success + b.success
    failure := a.failure + b.failure
    dirsEntered := a.dirsEntered ++ b.dirsEntered
    filesProcessed := a.filesProcessed ++ b.filesProcessed
    ops := a.ops ++ b.ops
    msgs := a.msgs ++ b.msgs }

/-- `src/index.js` lines 113-115: hand a file entry to `processFile` and
count its boolean result. -/
def fileStep (env : Env) (p : List Char) : WalkResult :=
  let r := processFile env p
  { success := if r.ok then 1 else 0
    failure := if r.ok then 0 else 1
    dirsEntered := []
    filesProcessed := [p]
    ops := r.ops
    msgs := r.msgs }

/-- The contribution of a `processDirectory` call whose `readdir` throws
(`src/index.js` lines 118-121): one logged error and one failure increment
for the directory node itself. -/
def dirReadFailure (p : List Char) : WalkResult :=
  { success := 0, failure := 1, dirsEntered := [p], filesProcessed := [],
    ops := [], msgs := [Msg.failedToReadDirectory p] }

/-- The `for (const entry of entries)` loop of `processDirectory`
(`src/index.js` lines 106-117): directory entries are recursed into unless
their name is in `IGNORED_DIRS` or starts with `'.'`; file entries always go
to `processFile`; other entry kinds are ignored.  The recursion into a
subdirectory is `processDirectory` inlined: its `readdir` either fails
(caught at lines 118-121, one failure) or yields the subdirectory's entries. -/
def walkEntries (env : Env) (cur : List Char) : Entries → WalkResult
  | Entries.nil => emptyWalk
  | Entries.file name rest =>
      combine (fileStep env (pathJoin cur name)) (walkEntries env cur rest)
  | Entries.other _ rest =>
      combine emptyWalk (walkEntries env cur rest)
  | Entries.dir name readable children rest =>
      let child := pathJoin cur name
      let head :=
        if !(IGNORED_DIRS.contains name) && !(startsWithDot name) then
          if readable then
            let sub := walkEntries env child children
            { sub with dirsEntered := child :: sub.dirsEntered }
          else dirReadFailure child
        else emptyWalk
      combine head (walkEntries env cur rest)

/-- `convertDirectory` (`src/index.js` lines 98-126): run `processDirectory`
on the root and return the accumulated statistics. -/
def convertDirectory (env : Env) (dirPath : List Char) (readable : Bool)
    (entries : Entries) : WalkResult :=
  if readable then
    let w := walkEntries env dirPath entries
    { w with dirsEntered := dirPath :: w.dirsEntered }
  else dirReadFailure dirPath

/-- The parsed command-line options (`src/index.js` lines 129-139). -/
structure Opts where
  dir : List Char
  file : Option (List Char)
  dryRun : Bool
  verbose : Bool
  deriving DecidableEq

/-- Which work-performing component `main` invoked. -/
inductive Invocation where
  | converter (path : List Char)
  | walker (path : List Char)
  deriving DecidableEq

/-- Observable outcome of one `main` run: the process exit status, the
components invoked, the completed filesystem mutations and the console
lines. -/
structure RunResult where
  exitCode : Nat
  invoked : List Invocation
  ops : List FsOp
  msgs : List Msg
  deriving DecidableEq

/-- `main` (`src/index.js` lines 138-168).  JS `if (file)` is truthy only
for a given, non-empty string.  The `catch`/`process.exit(1)` at lines
164-167 can only fire on an exception escaping `processFile` or
`convertDirectory`; both catch every error they can raise (lines 87-90 and
118-121), so every modelled run completes with exit status `0`.  The root
directory's on-disk layout is supplied as `rootReadable`/`rootEntries`. -/
def mainRun (env : Env) (rootReadable : Bool) (rootEntries : Entries)
    (opts : Opts) : RunResult :=
  let pre :=
    (if opts.verbose then [Msg.runtimeParams opts.dir opts.file opts.dryRun] else [])
      ++ (if opts.dryRun then [Msg.dryRunBanner] else [])
  let dirBranch : RunResult :=
    if opts.dryRun then
      { exitCode := 0, invoked := [], ops := [],
        msgs := pre ++ [Msg.wouldScanDirectory opts.dir] }
    else
      let w := convertDirectory env opts.dir rootReadable rootEntries
      { exitCode := 0, invoked := [Invocation.walker opts.dir], ops := w.ops,
        msgs := pre ++ w.msgs ++ [Msg.conversionComplete w.success w.failure] }
  match opts.file with
  | some f =>
      if f.isEmpty then dirBranch
      else if opts.dryRun then
        { exitCode := 0, invoked := [], ops := [],
          msgs := pre ++ [Msg.wouldConvertFile f] }
      else
        let r := processFile env f
        { exitCode := 0, invoked := [Invocation.converter f], ops := r.ops,
          msgs := pre ++ r.msgs }
  | none => dirBranch

/-- The single message a dry run prints after the banner: it names the
resolved top-level target, the file when one was (truthily) given, the
directory otherwise (`src/index.js` lines 150-158). -/
def resolvedTargetMsg (opts : Opts) : Msg :=
  match opts.file with
  | some f => if f.isEmpty then Msg.wouldScanDirectory opts.dir else Msg.wouldConvertFile f
  | none => Msg.wouldScanDirectory opts.dir

/-- The composite "what the engine produced for this file" value:
`fs.readFile` followed by `convertTypeScript` (`src/index.js` lines 71-72). -/
def convertedOf (env : Env) (p : List Char) : Option (List Char) :=
  match env.read p with
  | Except.error _ => none
  | Except.ok s => convertTypeScript env.engine s

/-- Concrete oracle environment for witnesses: every read succeeds and
returns the path itself as the file's contents, the engine echoes its input,
and every write and unlink succeeds. -/
def demoEnv : Env :=
  { read := fun p => Except.ok p
    engine := fun src _ => some src
    write := fun _ _ => Except.ok ()
    unlink := fun _ => Except.ok () }

/-- The scenario listing from the specification: `a.ts`, `b.tsx`, `c.json`. -/
def demoEntries : Entries :=
  Entries.file "a.ts".toList
    (Entries.file "b.tsx".toList (Entries.file "c.json".toList Entries.nil))

/-- Concrete oracle environment in which every read fails with `ENOENT`. -/
def badEnv : Env :=
  { read := fun _ => Except.error "ENOENT".toList
    engine := fun _ _ => none
    write := fun _ _ => Except.ok ()
    unlink := fun _ => Except.ok () }

/-- Single-file-mode options naming an unreadable target. -/
def badOpts : Opts :=
  { dir := "/w".toList, file := some "bad.ts".toList, dryRun := false, verbose := false }

/-- Single-file-mode options with the dry-run flag set. -/
def dryOpts : Opts :=
  { dir := "d".toList, file := some "f.ts".toList, dryRun := true, verbose := false }

/-- A snapshot that already holds a file at the output path mapped from
`a.ts`. -/
def fsWithOld : FS :=
  fun q => if q = newPathOf "a.ts".toList then some "old".toList else none

theorem combine_emptyWalk_left (b : WalkResult) : combine emptyWalk b = b := by
  simp [combine, emptyWalk]

theorem combine_emptyWalk_right (a : WalkResult) : combine a emptyWalk = a := by
  simp [combine, emptyWalk]

theorem supported_cases {e : List Char}
    (h : SUPPORTED_EXTENSIONS.contains e = true) :
    e = ".ts".toList ∨ e = ".tsx".toList := by
  simpa [SUPPORTED_EXTENSIONS] using h

theorem extLower_append_js (q : List Char) :
    extLower (q ++ ".js".toList) ≠ ".ts".toList := by
  have hrev : (q ++ ".js".toList).reverse = 's' :: 'j' :: '.' :: q.reverse := by
    rw [List.reverse_append]; rfl
  have hbase : basenameOf (q ++ ".js".toList)
      = ('s' :: 'j' :: '.' :: q.reverse.takeWhile (fun c => c != '/')).reverse := by
    unfold basenameOf
    rw [hrev]; rfl
  have hlen : (basenameOf (q ++ ".js".toList)).length
      = 3 + (q.reverse.takeWhile (fun c => c != '/')).length := by
    rw [hbase, List.length_reverse]
    simp only [List.length_cons]
    omega
  have hne2 : basenameOf (q ++ ".js".toList) ≠ ['.', '.'] := by
    intro h
    have h' := congrArg List.length h
    rw [hlen] at h'
    simp only [List.length_cons, List.length_nil] at h'
    omega
  have hrad : (basenameOf (q ++ ".js".toList)).reverse.takeWhile (fun c => c != '.')
      = ['s', 'j'] := by
    rw [hbase, List.reverse_reverse]; rfl
  unfold extLower extname
  rw [if_neg hne2, hrad, hlen]
  have hsj : (['s', 'j'] : List Char).length = 2 := rfl
  rw [hsj]
  rw [if_neg (by omega)]
  by_cases hT : (q.reverse.takeWhile (fun c => c != '/')).length = 0
  · rw [if_pos (by omega)]
    decide
  · rw [if_neg (by omega)]
    decide

theorem extLower_append_jsx (q : List Char) :
    extLower (q ++ ".jsx".toList) ≠ ".tsx".toList := by
  have hrev : (q ++ ".jsx".toList).reverse = 'x' :: 's' :: 'j' :: '.' :: q.reverse := by
    rw [List.reverse_append]; rfl
  have hbase : basenameOf (q ++ ".jsx".toList)
      = ('x' :: 's' :: 'j' :: '.' :: q.reverse.takeWhile (fun c => c != '/')).reverse := by
    unfold basenameOf
    rw [hrev]; rfl
  have hlen : (basenameOf (q ++ ".jsx".toList)).length
      = 4 + (q.reverse.takeWhile (fun c => c != '/')).length := by
    rw [hbase, List.length_reverse]
    simp only [List.length_cons]
    omega
  have hne2 : basenameOf (q ++ ".jsx".toList) ≠ ['.', '.'] := by
    intro h
    have h' := congrArg List.length h
    rw [hlen] at h'
    simp only [List.length_cons, List.length_nil] at h'
    omega
  have hrad : (basenameOf (q ++ ".jsx".toList)).reverse.takeWhile (fun c => c != '.')
      = ['x', 's', 'j'] := by
    rw [hbase, List.reverse_reverse]; rfl
  unfold extLower extname
  rw [if_neg hne2, hrad, hlen]
  have hsj : (['x', 's', 'j'] : List Char).length = 3 := rfl
  rw [hsj]
  rw [if_neg (by omega)]
  by_cases hT : (q.reverse.takeWhile (fun c => c != '/')).length = 0
  · rw [if_pos (by omega)]
    decide
  · rw [if_neg (by omega)]
    decide

theorem newPathOf_ne {p : List Char}
    (h : SUPPORTED_EXTENSIONS.contains (extLower p) = true) :
    newPathOf p ≠ p := by
  intro he
  rcases supported_cases h with hts | htsx
  · have hnew : newPathOf p = jsSliceDropEnd p 3 ++ ".js".toList := by
      unfold newPathOf
      rw [hts]; rfl
    rw [hnew] at he
    exact extLower_append_js (jsSliceDropEnd p 3) (by rw [he]; exact hts)
  · have hnew : newPathOf p = jsSliceDropEnd p 4 ++ ".jsx".toList := by
      unfold newPathOf
      rw [htsx]; rfl
    rw [hnew] at he
    exact extLower_append_jsx (jsSliceDropEnd p 4) (by rw [he]; exact htsx)

theorem leadsWith_iff (pat : List Char) : ∀ s : List Char,
    (leadsWith pat s = true ↔ ∃ t, s = pat ++ t) := by
  induction pat with
  | nil =>
    intro s
    simp [leadsWith]
  | cons a as ih =>
    intro s
    cases s with
    | nil =>
      simp [leadsWith]
    | cons b bs =>
      rw [leadsWith]
      simp only [Bool.and_eq_true, beq_iff_eq, ih bs]
      constructor
      · rintro ⟨rfl, t, rfl⟩
        exact ⟨t, rfl⟩
      · rintro ⟨t, h⟩
        rw [List.cons_append] at h
        cases h
        exact ⟨rfl, t, rfl⟩

theorem jsIncludes_iff (pat : List Char) : ∀ s : List Char,
    (jsIncludes s pat = true ↔ ∃ t u, s = t ++ (pat ++ u)) := by
  intro s
  induction s with
  | nil =>
    rw [jsIncludes]
    simp only [List.isEmpty_iff]
    constructor
    · rintro rfl
      exact ⟨[], [], rfl⟩
    · rintro ⟨t, u, h⟩
      rcases List.append_eq_nil.mp h.symm with ⟨-, h2⟩
      rcases List.append_eq_nil.mp h2 with ⟨h3, -⟩
      exact h3
  | cons c cs ih =>
    rw [jsIncludes]
    simp only [Bool.or_eq_true, leadsWith_iff pat (c :: cs), ih]
    constructor
    · rintro (⟨t, h⟩ | ⟨t, u, h⟩)
      · exact ⟨[], t, by simpa using h⟩
      · exact ⟨c :: t, u, by simp [h]⟩
    · rintro ⟨t, u, h⟩
      cases t with
      | nil =>
        exact Or.inl ⟨u, by simpa using h⟩
      | cons d t' =>
        rw [List.cons_append] at h
        cases h
        exact Or.inr ⟨t', u, rfl⟩

theorem mem_supported_of_contains {e : List Char}
    (h : SUPPORTED_EXTENSIONS.contains e = true) : e ∈ SUPPORTED_EXTENSIONS := by
  simpa using h

theorem not_mem_supported_of_contains {e : List Char}
    (h : SUPPORTED_EXTENSIONS.contains e = false) : ¬ e ∈ SUPPORTED_EXTENSIONS := by
  simpa using h

theorem processFile_not_supported (env : Env) (p : List Char)
    (h : SUPPORTED_EXTENSIONS.contains (extLower p) = false) :
    processFile env p = { ok := false, ops := [], msgs := [Msg.skipUnsupported p] } := by
  simp [processFile, not_mem_supported_of_contains h]

theorem processFile_read_error (env : Env) (p e : List Char)
    (hs : SUPPORTED_EXTENSIONS.contains (extLower p) = true)
    (hr : env.read p = Except.error e) :
    processFile env p = { ok := false, ops := [], msgs := [Msg.failedToProcess p e] } := by
  simp [processFile, mem_supported_of_contains hs, hr]

theorem processFile_engine_none (env : Env) (p s : List Char)
    (hs : SUPPORTED_EXTENSIONS.contains (extLower p) = true)
    (hr : env.read p = Except.ok s)
    (hc : convertTypeScript env.engine s = none) :
    processFile env p
      = { ok := false, ops := [], msgs := [Msg.failedToProcess p conversionFailedReason] } := by
  simp [processFile, mem_supported_of_contains hs, hr, hc]

theorem processFile_empty_output (env : Env) (p s : List Char)
    (hs : SUPPORTED_EXTENSIONS.contains (extLower p) = true)
    (hr : env.read p = Except.ok s)
    (hc : convertTypeScript env.engine s = some []) :
    processFile env p
      = { ok := false, ops := [], msgs := [Msg.failedToProcess p conversionFailedReason] } := by
  simp [processFile, mem_supported_of_contains hs, hr, hc]

theorem processFile_write_error (env : Env) (p s c e : List Char)
    (hs : SUPPORTED_EXTENSIONS.contains (extLower p) = true)
    (hr : env.read p = Except.ok s)
    (hc : convertTypeScript env.engine s = some c)
    (hne : c.isEmpty = false)
    (hw : env.write (newPathOf p) c = Except.error e) :
    processFile env p = { ok := false, ops := [], msgs := [Msg.failedToProcess p e] } := by
  have hne2 : c ≠ [] := by simpa using hne
  simp [processFile, mem_supported_of_contains hs, hr, hc, hne2, hw]

theorem processFile_unlink_error (env : Env) (p s c e : List Char)
    (hs : SUPPORTED_EXTENSIONS.contains (extLower p) = true)
    (hr : env.read p = Except.ok s)
    (hc : convertTypeScript env.engine s = some c)
    (hne : c.isEmpty = false)
    (hw : env.write (newPathOf p) c = Except.ok ())
    (hu : env.unlink p = Except.error e) :
    processFile env p
      = { ok := false, ops := [FsOp.write (newPathOf p) c],
          msgs := [Msg.failedToProcess p e] } := by
  have hne2 : c ≠ [] := by simpa using hne
  simp [processFile, mem_supported_of_contains hs, hr, hc, hne2, hw, hu]

theorem processFile_success_eq (env : Env) (p s c : List Char)
    (hs : SUPPORTED_EXTENSIONS.contains (extLower p) = true)
    (hr : env.read p = Except.ok s)
    (hc : convertTypeScript env.engine s = some c)
    (hne : c.isEmpty = false)
    (hw : env.write (newPathOf p) c = Except.ok ())
    (hu : env.unlink p = Except.ok ()) :
    processFile env p
      = { ok := true, ops := [FsOp.write (newPathOf p) c, FsOp.unlink p],
          msgs := [Msg.successConverted p (newPathOf p)] } := by
  have hne2 : c ≠ [] := by simpa using hne
  simp [processFile, mem_supported_of_contains hs, hr, hc, hne2, hw, hu]

theorem processFile_ok_inv (env : Env) (p : List Char)
    (h : (processFile env p).ok = true) :
    SUPPORTED_EXTENSIONS.contains (extLower p) = true ∧
    ∃ s c, env.read p = Except.ok s ∧ convertTypeScript env.engine s = some c ∧
      c.isEmpty = false ∧
      processFile env p
        = { ok := true, ops := [FsOp.write (newPathOf p) c, FsOp.unlink p],
            msgs := [Msg.successConverted p (newPathOf p)] } := by
  by_cases hs : SUPPORTED_EXTENSIONS.contains (extLower p) = true
  · refine ⟨hs, ?_⟩
    cases hr : env.read p with
    | error e =>
      rw [processFile_read_error env p e hs hr] at h
      simp at h
    | ok s =>
      cases hc : convertTypeScript env.engine s with
      | none =>
        rw [processFile_engine_none env p s hs hr hc] at h
        simp at h
      | some c =>
        cases hne : c.isEmpty with
        | true =>
          rw [List.isEmpty_iff] at hne
          subst hne
          rw [processFile_empty_output env p s hs hr hc] at h
          simp at h
        | false =>
          cases hw : env.write (newPathOf p) c with
          | error e =>
            rw [processFile_write_error env p s c e hs hr hc hne hw] at h
            simp at h
          | ok u =>
            cases u
            cases hu : env.unlink p with
            | error e =>
              rw [processFile_unlink_error env p s c e hs hr hc hne hw hu] at h
              simp at h
            | ok v =>
              cases v
              exact ⟨s, c, rfl, hc, hne, processFile_success_eq env p s c hs hr hc hne hw hu⟩
  · rw [processFile_not_supported env p (by simpa using hs)] at h
    simp at h

theorem processFile_ops_shape (env : Env) (p : List Char) :
    (processFile env p).ops = []
    ∨ (∃ c, (processFile env p).ops = [FsOp.write (newPathOf p) c])
    ∨ (∃ c, (processFile env p).ops
          = [FsOp.write (newPathOf p) c, FsOp.unlink p]) := by
  by_cases hs : SUPPORTED_EXTENSIONS.contains (extLower p) = true
  · cases hr : env.read p with
    | error e => rw [processFile_read_error env p e hs hr]; left; rfl
    | ok s =>
      cases hc : convertTypeScript env.engine s with
      | none => rw [processFile_engine_none env p s hs hr hc]; left; rfl
      | some c =>
        cases hne : c.isEmpty with
        | true =>
          rw [List.isEmpty_iff] at hne
          subst hne
          rw [processFile_empty_output env p s hs hr hc]; left; rfl
        | false =>
          cases hw : env.write (newPathOf p) c with
          | error e => rw [processFile_write_error env p s c e hs hr hc hne hw]; left; rfl
          | ok u =>
            cases u
            cases hu : env.unlink p with
            | error e =>
              rw [processFile_unlink_error env p s c e hs hr hc hne hw hu]
              right; left; exact ⟨c, rfl⟩
            | ok v =>
              cases v
              rw [processFile_success_eq env p s c hs hr hc hne hw hu]
              right; right; exact ⟨c, rfl⟩
  · rw [processFile_not_supported env p (by simpa using hs)]; left; rfl


/-- Claim C1, counterexample: a walk over a directory holding one valid
plain-dialect file (`a.ts`), one valid markup-dialect file (`b.tsx`) and one
file with an unrecognized extension (`c.json`) reports success = 2 but
failure = 1, not failure = 0: the skipped file's `false` return is counted
in `failureCount` by `convertDirectory`. -/
theorem c1_counterexample :
    (convertDirectory demoEnv "root".toList true demoEntries).success = 2
    ∧ (convertDirectory demoEnv "root".toList true demoEntries).failure = 1
    ∧ ¬ (convertDirectory demoEnv "root".toList true demoEntries).failure = 0 := by
  decide

/-- Claim C1, amended: during a directory walk, a file whose extension is
not in the recognized set is skipped with a warning and without touching
the filesystem, but its `false` return is counted in `failureCount`
(never in `successCount`); the scenario walk therefore reports
success = 2, failure = 1. -/
theorem c1_unsupported_skipped_counts_failure :
    ∀ (env : Env) (cur name : List Char) (rest : Entries),
    SUPPORTED_EXTENSIONS.contains (extLower (pathJoin cur name)) = false →
    processFile env (pathJoin cur name)
        = { ok := false, ops := [],
            msgs := [Msg.skipUnsupported (pathJoin cur name)] }
    ∧ (walkEntries env cur (Entries.file name rest)).success
        = (walkEntries env cur rest).success
    ∧ (walkEntries env cur (Entries.file name rest)).failure
        = (walkEntries env cur rest).failure + 1 := by
  intro env cur name rest h
  have hp := processFile_not_supported env (pathJoin cur name) h
  refine ⟨hp, ?_, ?_⟩
  · simp [walkEntries, fileStep, combine, hp]
  · simp [walkEntries, fileStep, combine, hp]
    omega

/-- Witness for the amended C1, at the concrete entry `c.json` of the
scenario directory. -/
theorem c1_witness :
    SUPPORTED_EXTENSIONS.contains (extLower (pathJoin "root".toList "c.json".toList)) = false
    ∧ (processFile demoEnv (pathJoin "root".toList "c.json".toList)
          = { ok := false, ops := [],
              msgs := [Msg.skipUnsupported (pathJoin "root".toList "c.json".toList)] }
        ∧ (walkEntries demoEnv "root".toList
              (Entries.file "c.json".toList Entries.nil)).success
            = (walkEntries demoEnv "root".toList Entries.nil).success
        ∧ (walkEntries demoEnv "root".toList
              (Entries.file "c.json".toList Entries.nil)).failure
            = (walkEntries demoEnv "root".toList Entries.nil).failure + 1) :=
  ⟨by decide,
   c1_unsupported_skipped_counts_failure demoEnv "root".toList "c.json".toList
     Entries.nil (by decide)⟩

/-- Claim C2, counterexample: a single-file run whose named target cannot be
read (the read throws `ENOENT`) still completes with exit status `0` — the
read error is caught inside `processFile` (src lines 87-90), so it never
reaches the top-level handler. -/
theorem c2_counterexample :
    badEnv.read "bad.ts".toList = Except.error "ENOENT".toList
    ∧ mainRun badEnv true Entries.nil badOpts
        = { exitCode := 0, invoked := [Invocation.converter "bad.ts".toList], ops := [],
            msgs := [Msg.failedToProcess "bad.ts".toList "ENOENT".toList] } :=
  ⟨rfl, by decide⟩

/-- Claim C2, amended: every modelled run completes with exit status `0`,
including a single-file run whose read throws: `processFile` catches all of
its own errors and `convertDirectory` catches all enumeration errors, so no
error ever escapes to the top-level handler, and completion (even with
nonzero `failureCount`) exits with status zero. -/
theorem c2_all_runs_exit_zero :
    ∀ (env : Env) (rootReadable : Bool) (rootEntries : Entries) (opts : Opts),
    (mainRun env rootReadable rootEntries opts).exitCode = 0 := by
  intro env rR rE opts
  rcases hf : opts.file with _ | f
  · by_cases hd : opts.dryRun = true <;> simp [mainRun, hf, hd]
  · by_cases he : f.isEmpty = true <;> by_cases hd : opts.dryRun = true <;>
      simp [mainRun, hf, he, hd]


/-- Claim C3 (confirmed): in every `processFile` run, any deletion in the
mutation trace is preceded by the write of the converted output (the only
trace containing an unlink is `[write, unlink]`), and on the failure paths
before the write completes — unrecognized extension, read failure,
transform failure — the trace is empty, so no file is created, modified or
deleted and every snapshot, in particular the original file, is unchanged. -/
theorem c3_write_before_delete :
    ∀ (env : Env) (p : List Char),
    ((SUPPORTED_EXTENSIONS.contains (extLower p) = false
        ∨ (∃ e, env.read p = Except.error e)
        ∨ (∃ s, env.read p = Except.ok s ∧ convertTypeScript env.engine s = none)) →
      (processFile env p).ops = []
      ∧ ∀ (fs : FS) (q : List Char), applyOps fs (processFile env p).ops q = fs q)
    ∧ (∀ q : List Char, FsOp.unlink q ∈ (processFile env p).ops →
        ∃ c, (processFile env p).ops = [FsOp.write (newPathOf p) c, FsOp.unlink p]) := by
  intro env p
  constructor
  · intro h
    have hops : (processFile env p).ops = [] := by
      by_cases hs : SUPPORTED_EXTENSIONS.contains (extLower p) = true
      · rcases h with h | ⟨e, he⟩ | ⟨s, hr, hc⟩
        · rw [hs] at h
          simp at h
        · rw [processFile_read_error env p e hs he]
        · rw [processFile_engine_none env p s hs hr hc]
      · rw [processFile_not_supported env p (by simpa using hs)]
    exact ⟨hops, fun fs q => by rw [hops]; rfl⟩
  · intro q hq
    rcases processFile_ops_shape env p with h0 | ⟨c, h1⟩ | ⟨c, h2⟩
    · rw [h0] at hq
      simp at hq
    · rw [h1] at hq
      simp at hq
    · exact ⟨c, h2⟩

/-- Witness for C3, at a concrete run whose read fails: no mutation at all
is performed. -/
theorem c3_witness :
    (processFile badEnv "bad.ts".toList).ops = [] :=
  ((c3_write_before_delete badEnv "bad.ts".toList).1
    (Or.inr (Or.inl ⟨"ENOENT".toList, rfl⟩))).1

/-- Claim C4 (confirmed): whenever `processFile` returns `true`, the mapped
output path differs from the original path, and applying the run's mutation
trace to any snapshot leaves a file present at the mapped path (obtained by
replacing the recognized extension per `OUTPUT_EXTENSIONS`) and no file at
the original path. -/
theorem c4_success_single_mapped_file :
    ∀ (env : Env) (p : List Char), (processFile env p).ok = true →
    ∀ fs : FS,
    newPathOf p ≠ p
    ∧ (applyOps fs (processFile env p).ops (newPathOf p)).isSome = true
    ∧ applyOps fs (processFile env p).ops p = none := by
  intro env p h fs
  obtain ⟨hs, s, c, hr, hc, hne, heq⟩ := processFile_ok_inv env p h
  have hnp : newPathOf p ≠ p := newPathOf_ne hs
  refine ⟨hnp, ?_, ?_⟩
  · rw [heq]
    simp [applyOps, applyOp, hnp]
  · rw [heq]
    simp [applyOps, applyOp]

/-- Witness for C4, at the concrete successful conversion of `a.ts`. -/
theorem c4_witness :
    newPathOf "a.ts".toList ≠ "a.ts".toList
    ∧ (applyOps emptyFS (processFile demoEnv "a.ts".toList).ops
          (newPathOf "a.ts".toList)).isSome = true
    ∧ applyOps emptyFS (processFile demoEnv "a.ts".toList).ops "a.ts".toList = none :=
  c4_success_single_mapped_file demoEnv "a.ts".toList (by decide) emptyFS

/-- Claim C5 (confirmed): with the dry-run flag set, `main` invokes neither
the File Converter nor the Directory Walker, performs no filesystem
mutation, exits 0, and prints only the banner and the resolved top-level
target (plus the parameter echo when verbose). -/
theorem c5_dry_run_pure :
    ∀ (env : Env) (rootReadable : Bool) (rootEntries : Entries) (opts : Opts),
    opts.dryRun = true →
    mainRun env rootReadable rootEntries opts
      = { exitCode := 0, invoked := [], ops := [],
          msgs := (if opts.verbose then
              [Msg.runtimeParams opts.dir opts.file opts.dryRun] else [])
            ++ [Msg.dryRunBanner, resolvedTargetMsg opts] } := by
  intro env rR rE opts h
  rcases hf : opts.file with _ | f
  · simp [mainRun, resolvedTargetMsg, hf, h]
  · by_cases he : f.isEmpty = true <;> simp [mainRun, resolvedTargetMsg, hf, h, he]

/-- Witness for C5, at a concrete dry-run invocation in single-file mode. -/
theorem c5_witness :
    mainRun demoEnv true Entries.nil dryOpts
      = { exitCode := 0, invoked := [], ops := [],
          msgs := (if dryOpts.verbose then
              [Msg.runtimeParams dryOpts.dir dryOpts.file dryOpts.dryRun] else [])
            ++ [Msg.dryRunBanner, resolvedTargetMsg dryOpts] } :=
  c5_dry_run_pure demoEnv true Entries.nil dryOpts rfl


/-- Claim C6 (confirmed): the walker recurses into a directory entry exactly
when its name is neither in `IGNORED_DIRS` nor starts with `'.'` (the walk
of a single directory entry enters some directory iff that condition holds),
and a skipped directory entry contributes nothing at all to the walk — the
result equals the walk of the remaining entries. -/
theorem c6_recurse_iff_not_ignored :
    ∀ (env : Env) (cur name : List Char) (readable : Bool) (children rest : Entries),
    (((walkEntries env cur (Entries.dir name readable children Entries.nil)).dirsEntered ≠ [])
      ↔ (IGNORED_DIRS.contains name = false ∧ startsWithDot name = false))
    ∧ ((IGNORED_DIRS.contains name = true ∨ startsWithDot name = true) →
        walkEntries env cur (Entries.dir name readable children rest)
          = walkEntries env cur rest) := by
  intro env cur name readable children rest
  constructor
  · cases hi : IGNORED_DIRS.contains name with
    | true =>
      have hmem : name ∈ IGNORED_DIRS := by simpa using hi
      simp [walkEntries, combine, emptyWalk, hmem, hi]
    | false =>
      have hmem : ¬ name ∈ IGNORED_DIRS := by simpa using hi
      cases hd : startsWithDot name with
      | true => simp [walkEntries, combine, emptyWalk, hmem, hi, hd]
      | false =>
        cases readable with
        | true => simp [walkEntries, combine, emptyWalk, hmem, hi, hd]
        | false => simp [walkEntries, combine, emptyWalk, dirReadFailure, hmem, hi, hd]
  · intro h
    rcases h with h | h
    · have hmem : name ∈ IGNORED_DIRS := by simpa using h
      simp [walkEntries, hmem, combine_emptyWalk_left]
    · simp [walkEntries, h, combine_emptyWalk_left]

/-- Witness for C6, at the concrete ignored directory name `node_modules`. -/
theorem c6_witness :
    walkEntries demoEnv "r".toList
        (Entries.dir "node_modules".toList true Entries.nil Entries.nil)
      = walkEntries demoEnv "r".toList Entries.nil :=
  (c6_recurse_iff_not_ignored demoEnv "r".toList "node_modules".toList true
      Entries.nil Entries.nil).2 (Or.inl (by decide))

/-- Claim C7 (confirmed): a directory entry whose listing cannot be
enumerated contributes exactly one failure (independent of the files inside
it), logs the error, and the walk continues with the remaining sibling
entries; a root directory that cannot be enumerated likewise yields exactly
one failure. -/
theorem c7_unreadable_dir_counts_once :
    ∀ (env : Env) (cur name : List Char) (children rest : Entries) (dpath : List Char),
    IGNORED_DIRS.contains name = false → startsWithDot name = false →
    walkEntries env cur (Entries.dir name false children rest)
        = combine (dirReadFailure (pathJoin cur name)) (walkEntries env cur rest)
    ∧ (walkEntries env cur (Entries.dir name false children rest)).failure
        = (walkEntries env cur rest).failure + 1
    ∧ (walkEntries env cur (Entries.dir name false children rest)).success
        = (walkEntries env cur rest).success
    ∧ convertDirectory env dpath false children = dirReadFailure dpath := by
  intro env cur name children rest dpath h1 h2
  have hmem : ¬ name ∈ IGNORED_DIRS := by simpa using h1
  refine ⟨?_, ?_, ?_, ?_⟩
  · simp [walkEntries, hmem, h2]
  · simp [walkEntries, hmem, h2, combine, dirReadFailure]
    omega
  · simp [walkEntries, hmem, h2, combine, dirReadFailure]
  · simp [convertDirectory]

/-- Witness for C7, at a concrete unreadable directory containing one file:
the failure is still a single one, attributed to the directory node. -/
theorem c7_witness :
    convertDirectory demoEnv "droot".toList false (Entries.file "x.ts".toList Entries.nil)
      = dirReadFailure "droot".toList :=
  (c7_unreadable_dir_counts_once demoEnv "r".toList "sub".toList
      (Entries.file "x.ts".toList Entries.nil) Entries.nil "droot".toList
      (by decide) (by decide)).2.2.2

/-- Claim C8 (confirmed): the markup (`isTSX`) mode handed to the transform
engine is computed from the source text alone — `convertTypeScript` passes
`jsIncludes sourceCode tsxMarker`, which is `true` exactly when the literal
substring `tsx` occurs anywhere in the source text; no file extension enters
the computation. -/
theorem c8_markup_mode_heuristic :
    ∀ (engine : List Char → Bool → Option (List Char)) (src : List Char),
    convertTypeScript engine src = engine src (jsIncludes src tsxMarker)
    ∧ (jsIncludes src tsxMarker = true ↔ ∃ t u, src = t ++ (tsxMarker ++ u)) := by
  intro engine src
  exact ⟨rfl, jsIncludes_iff tsxMarker src⟩

/-- Claim C9 (confirmed): on a successful conversion, even when a file
already exists at the mapped output path, the trace simply overwrites it
with the engine's output — no pre-existence check is made (the result does
not depend on the snapshot) and the only message emitted is the success
line, never a warning. -/
theorem c9_output_overwritten_silently :
    ∀ (env : Env) (p : List Char) (fs : FS) (old : List Char),
    (processFile env p).ok = true →
    fs (newPathOf p) = some old →
    applyOps fs (processFile env p).ops (newPathOf p) = convertedOf env p
    ∧ (processFile env p).msgs = [Msg.successConverted p (newPathOf p)] := by
  intro env p fs old h hold
  obtain ⟨hs, s, c, hr, hc, hne, heq⟩ := processFile_ok_inv env p h
  have hnp : newPathOf p ≠ p := newPathOf_ne hs
  have hconv : convertedOf env p = some c := by simp [convertedOf, hr, hc]
  constructor
  · rw [heq, hconv]
    simp [applyOps, applyOp, hnp]
  · rw [heq]

/-- Witness for C9, at the concrete conversion of `a.ts` over a snapshot
that already holds an old file at `a.js`. -/
theorem c9_witness :
    applyOps fsWithOld (processFile demoEnv "a.ts".toList).ops (newPathOf "a.ts".toList)
        = convertedOf demoEnv "a.ts".toList
    ∧ (processFile demoEnv "a.ts".toList).msgs
        = [Msg.successConverted "a.ts".toList (newPathOf "a.ts".toList)] :=
  c9_output_overwritten_silently demoEnv "a.ts".toList fsWithOld "old".toList
    (by decide) (by decide)

/-- Claim C10 (confirmed): the ignore rules apply only to directory entries
— a file entry is always handed to `processFile`, even when its name starts
with `'.'` or equals an ignored directory name, and its boolean result is
added to the success or failure counter. -/
theorem c10_files_not_ignored :
    ∀ (env : Env) (cur name : List Char) (rest : Entries),
    (startsWithDot name = true ∨ IGNORED_DIRS.contains name = true) →
    (pathJoin cur name) ∈ (walkEntries env cur (Entries.file name rest)).filesProcessed
    ∧ (if (processFile env (pathJoin cur name)).ok
       then (walkEntries env cur (Entries.file name rest)).success
              = (walkEntries env cur rest).success + 1
            ∧ (walkEntries env cur (Entries.file name rest)).failure
              = (walkEntries env cur rest).failure
       else (walkEntries env cur (Entries.file name rest)).success
              = (walkEntries env cur rest).success
            ∧ (walkEntries env cur (Entries.file name rest)).failure
              = (walkEntries env cur rest).failure + 1) := by
  intro env cur name rest h
  constructor
  · simp [walkEntries, fileStep, combine]
  · cases hok : (processFile env (pathJoin cur name)).ok with
    | true =>
      simp [walkEntries, fileStep, combine, hok]
      omega
    | false =>
      simp [walkEntries, fileStep, combine, hok]
      omega

/-- Witness for C10, at the concrete hidden file name `.env`: it is handed
to the converter (where it fails as unsupported) and counted as a failure. -/
theorem c10_witness :
    (pathJoin "r".toList ".env".toList)
        ∈ (walkEntries demoEnv "r".toList
            (Entries.file ".env".toList Entries.nil)).filesProcessed
    ∧ (if (processFile demoEnv (pathJoin "r".toList ".env".toList)).ok
       then (walkEntries demoEnv "r".toList
                (Entries.file ".env".toList Entries.nil)).success
              = (walkEntries demoEnv "r".toList Entries.nil).success + 1
            ∧ (walkEntries demoEnv "r".toList
                (Entries.file ".env".toList Entries.nil)).failure
              = (walkEntries demoEnv "r".toList Entries.nil).failure
       else (walkEntries demoEnv "r".toList
                (Entries.file ".env".toList Entries.nil)).success
              = (walkEntries demoEnv "r".toList Entries.nil).success
            ∧ (walkEntries demoEnv "r".toList
                (Entries.file ".env".toList Entries.nil)).failure
              = (walkEntries demoEnv "r".toList Entries.nil).failure + 1) :=
  c10_files_not_ignored demoEnv "r".toList ".env".toList Entries.nil (Or.inl (by decide))


end Ttj
